import Mathlib

/-!
Verification of the aptitude-quiz question-selection pipeline and scoring
contract of the SY_MINOR career-advice application.

The JavaScript sources embedded here:
  - `src/utils/helpers.js`         : `shuffleArray` (Fisher–Yates on a copy)
  - `src/controllers/profileController.js` (aptitude controller part):
      `generateQuestions`, `processSection`, `resetQuestionPool`,
      the in-memory `userAttempts` store
  - `src/services/geminiService.js`: `generateAptitudeQuestions` fallback logic

JavaScript randomness (`Math.floor(Math.random() * (i + 1))`) is modelled by
an arbitrary draw function `r : Nat → Nat`, reduced at step `i` to
`r i % (i + 1)`, which ranges over exactly the values the source can draw.
Timestamps (`Date.now()`, millisecond epochs) are modelled as `Int`.
-/

/-- A quiz question as produced by the question bank / Gemini service:
`{id, question, options[], answerIndex}`.  `answerIndex` is an `Int` because
the source recomputes it with `Array.prototype.indexOf`, which returns `-1`
when the element is absent. -/
structure Question where
  id : String
  question : String
  options : List String
  answerIndex : Int
deriving DecidableEq, Repr

/-- The three-section question bank returned by
`geminiService.generateAptitudeQuestions`. -/
structure QuestionBank where
  quantitative : List Question
  logical : List Question
  verbal : List Question
deriving DecidableEq, Repr

/-- One entry of the in-memory `userAttempts` store
(`profileController.js`): the record pushed after each quiz request. -/
structure Attempt where
  userEmail : String
  classLevel : String
  questionIds : List String
  timestamp : Int
deriving DecidableEq, Repr

/-- The `questions` object of a successful `generateQuestions` response. -/
structure QuizResponse where
  quantitative : List Question
  logical : List Question
  verbal : List Question
deriving DecidableEq, Repr

/-- Swap the elements at positions `i` and `j` of a list; identity when either
index is out of bounds.  Inside `shuffleArray` both indices are always in
bounds, so the fallback branch is never taken there. -/
def listSwap {α : Type} (l : List α) (i j : Nat) : List α :=
  match l.get? i, l.get? j with
  | some a, some b => (l.set i b).set j a
  | _, _ => l

/-- Steps `i, i-1, …, 1` of the Fisher–Yates loop in `shuffleArray`
(`helpers.js`): at step `i` swap position `i` with position
`r i % (i + 1)`, the model of `Math.floor(Math.random() * (i + 1))`. -/
def fisherYatesAux {α : Type} (r : Nat → Nat) : Nat → List α → List α
  | 0, l => l
  | i + 1, l => fisherYatesAux r i (listSwap l (i + 1) (r (i + 1) % (i + 2)))

/-- Embedding of `shuffleArray` from `src/utils/helpers.js`: copy the array, then run the
Fisher–Yates loop `for (let i = length-1; i > 0; i--)` on the copy.  The
input list is left untouched (the source spreads into a fresh array first). -/
def shuffleArray {α : Type} (r : Nat → Nat) (array : List α) : List α :=
  fisherYatesAux r (array.length - 1) array

/-- JavaScript array indexing `options[i]`: `undefined` (here `none`) for a
negative or out-of-range index. -/
def jsGetElem (options : List String) (i : Int) : Option String :=
  if 0 ≤ i then options.get? i.toNat else none

/-- JavaScript `Array.prototype.indexOf` on a string array, applied to a
possibly-`undefined` element: first index of the element, `-1` when the
element is absent (and `indexOf(undefined)` is `-1` on a string array). -/
def jsIndexOf (l : List String) (x : Option String) : Int :=
  match x with
  | none => -1
  | some a => if a ∈ l then (l.indexOf a : Int) else -1

/-- The option-shuffling body of `processSection`
(`profileController.js` lines 91–99): remember the correct option text,
shuffle the options, recompute `answerIndex` with `indexOf`. -/
def updateQuestion (r : Nat → Nat) (q : Question) : Question :=
  let correctAnswer := jsGetElem q.options q.answerIndex
  let shuffledOptions := shuffleArray r q.options
  { q with
    options := shuffledOptions
    answerIndex := jsIndexOf shuffledOptions correctAnswer }

/-- Randomness consumed by one `processSection` call: one draw function for
the selection shuffle and one per returned question for its option shuffle. -/
structure SectionRand where
  sel : Nat → Nat
  opt : Nat → Nat → Nat

/-- Embedding of `processSection` from `profileController.js`: drop recently used
questions, fall back to the whole section if fewer than 10 remain, shuffle,
take 10, and shuffle each survivor's options. -/
def processSection (rnd : SectionRand) (sectionQuestions : List Question)
    (usedIds : List String) : List Question :=
  let availableQuestions :=
    sectionQuestions.filter (fun q => !(usedIds.contains q.id))
  let availableQuestions :=
    if availableQuestions.length < 10 then sectionQuestions
    else availableQuestions
  let shuffled := (shuffleArray rnd.sel availableQuestions).take 10
  shuffled.enum.map (fun p => updateQuestion (rnd.opt p.1) p.2)

/-- The recent-attempt lookup of `generateQuestions`: attempts of this user
whose timestamp is within the last 24 hours. -/
def recentAttemptsOf (now : Int) (userAttempts : List Attempt)
    (email : String) : List Attempt :=
  let oneDayAgo := now - 24 * 60 * 60 * 1000
  userAttempts.filter
    (fun a => a.userEmail == email && decide (oneDayAgo ≤ a.timestamp))

/-- The used-question-id accumulation loop of `generateQuestions`. -/
def usedQuestionIdsOf (recentAttempts : List Attempt) : List String :=
  recentAttempts.foldl (fun acc a => acc ++ a.questionIds) []

/-- Embedding of `generateQuestions` from `profileController.js` (success path of the
HTTP handler): validate the email (falsy email → 400, modelled as `none`),
look up recent attempts, build the exclusion set, process the three
sections, push the new `Attempt`, prune entries older than 7 days, and
return the response together with the new store contents. -/
def generateQuestions (now : Int) (userAttempts : List Attempt)
    (email classLevel : String) (allQuestions : QuestionBank)
    (rq rl rv : SectionRand) : Option (QuizResponse × List Attempt) :=
  if email = "" then none
  else
    let recentAttempts := recentAttemptsOf now userAttempts email
    let usedQuestionIds := usedQuestionIdsOf recentAttempts
    let questions : QuizResponse :=
      { quantitative := processSection rq allQuestions.quantitative usedQuestionIds
        logical := processSection rl allQuestions.logical usedQuestionIds
        verbal := processSection rv allQuestions.verbal usedQuestionIds }
    let allQuestionIds :=
      questions.quantitative.map (fun q => q.id)
        ++ questions.logical.map (fun q => q.id)
        ++ questions.verbal.map (fun q => q.id)
    let attempts1 := userAttempts ++
      [{ userEmail := email, classLevel := classLevel,
         questionIds := allQuestionIds, timestamp := now }]
    let sevenDaysAgo := now - 7 * 24 * 60 * 60 * 1000
    let validAttempts :=
      attempts1.filter (fun a => decide (sevenDaysAgo ≤ a.timestamp))
    some (questions, validAttempts)

/-- Embedding of `resetQuestionPool` from `profileController.js`: with a falsy email the
handler returns 400 and leaves the store untouched; otherwise it keeps only
the attempts of other users. -/
def resetQuestionPool (userAttempts : List Attempt) (email : String) :
    List Attempt :=
  if email = "" then userAttempts
  else userAttempts.filter (fun a => !(a.userEmail == email))

/-- Embedding of `fallbackQuestions` from `src/services/geminiService.js`: the fixed
built-in question set returned whenever the Gemini source is unavailable. -/
def fallbackQuestions : QuestionBank :=
  { quantitative :=
      [⟨"q1", "A shopkeeper sells an item at 20% profit. If the cost price is ₹500, what is the selling price?",
        ["₹600", "₹550", "₹625", "₹580"], 0⟩,
       ⟨"q2", "If 3x + 5 = 20, what is the value of x?",
        ["3", "4", "5", "6"], 2⟩,
       ⟨"q3", "A train 150m long passes a pole in 10 seconds. What is the speed of the train in km/h?",
        ["45 km/h", "54 km/h", "60 km/h", "72 km/h"], 1⟩,
       ⟨"q4", "If the area of a circle is 154 cm², what is its radius? (Take π = 22/7)",
        ["5 cm", "6 cm", "7 cm", "8 cm"], 2⟩,
       ⟨"q5", "A number when divided by 7 gives a quotient of 12 and remainder 5. What is the number?",
        ["84", "89", "91", "96"], 1⟩,
       ⟨"q6", "If 25% of a number is 75, what is 40% of that number?",
        ["100", "120", "150", "180"], 1⟩,
       ⟨"q7", "The sum of three consecutive even numbers is 54. What is the largest number?",
        ["16", "18", "20", "22"], 2⟩,
       ⟨"q8", "If a person walks at 6 km/h, how long will it take to cover 4.5 km?",
        ["40 minutes", "45 minutes", "50 minutes", "55 minutes"], 1⟩,
       ⟨"q9", "A rectangle has length 12 cm and width 8 cm. What is the area of a square with the same perimeter?",
        ["64 cm²", "81 cm²", "100 cm²", "121 cm²"], 2⟩,
       ⟨"q10", "If 2^5 × 3^2 = ?",
        ["144", "192", "288", "324"], 2⟩]
    logical :=
      [⟨"l1", "In a code, CAT is written as 3120. How is DOG written in that code?",
        ["4157", "4156", "4158", "4159"], 0⟩,
       ⟨"l2", "If all roses are flowers and some flowers are red, which statement must be true?",
        ["All roses are red", "Some roses are red", "No roses are red",
         "Cannot be determined"], 3⟩,
       ⟨"l3", "What comes next: 2, 6, 12, 20, 30, ?",
        ["40", "42", "44", "46"], 1⟩,
       ⟨"l4", "If Monday is the first day, what day will it be after 25 days?",
        ["Thursday", "Friday", "Saturday", "Sunday"], 1⟩,
       ⟨"l5", "A is taller than B, C is shorter than A. Who is the tallest?",
        ["A", "B", "C", "Cannot be determined"], 0⟩,
       ⟨"l6", "In a row, Priya is 15th from the left and 20th from the right. How many people are in the row?",
        ["33", "34", "35", "36"], 1⟩,
       ⟨"l7", "If 5 × 3 = 15, 7 × 4 = 28, then 9 × 6 = ?",
        ["45", "54", "63", "72"], 1⟩,
       ⟨"l8", "Complete the series: Z, Y, X, W, V, ?",
        ["U", "T", "S", "R"], 0⟩,
       ⟨"l9", "If all doctors are professionals and some professionals are teachers, which is true?",
        ["All doctors are teachers", "Some doctors are teachers",
         "No doctors are teachers", "Cannot be determined"], 3⟩,
       ⟨"l10", "Find the odd one out: 8, 27, 64, 100, 125",
        ["8", "27", "100", "125"], 2⟩]
    verbal :=
      [⟨"v1", "Choose the correct synonym for \x27Benevolent\x27:",
        ["Cruel", "Kind", "Strict", "Lazy"], 1⟩,
       ⟨"v2", "Fill in the blank: She is the _____ student in the class.",
        ["good", "better", "best", "well"], 2⟩,
       ⟨"v3", "Identify the error: \x27Neither of the students were present.\x27",
        ["No error", "were should be was", "students should be student",
         "present should be presence"], 1⟩,
       ⟨"v4", "Choose the correct meaning of \x27Procrastinate\x27:",
        ["To do immediately", "To delay or postpone", "To complete quickly",
         "To organize"], 1⟩,
       ⟨"v5", "Select the correctly spelled word:",
        ["Accomodate", "Accommodate", "Acommodate", "Acomodate"], 1⟩,
       ⟨"v6", "Choose the appropriate preposition: \x27She is allergic _____ peanuts.\x27",
        ["to", "for", "with", "at"], 0⟩,
       ⟨"v7", "What is the antonym of \x27Abundant\x27?",
        ["Plentiful", "Scarce", "Many", "Rich"], 1⟩,
       ⟨"v8", "Identify the figure of speech: \x27The wind whispered through the trees.\x27",
        ["Simile", "Metaphor", "Personification", "Alliteration"], 2⟩,
       ⟨"v9", "Choose the correct form: \x27I wish I _____ harder for the exam.\x27",
        ["study", "studied", "had studied", "will study"], 2⟩,
       ⟨"v10", "What does \x27Eloquent\x27 mean?",
        ["Unable to speak", "Fluent and persuasive in speaking",
         "Quiet and shy", "Rude and impolite"], 1⟩] }

/-- Outcome of reading the Gemini HTTP response body in
`generateAptitudeQuestions`: the candidate text may be missing, the cleaned
text may fail `JSON.parse`, or it parses with the three section properties
present (truthy) or not. -/
inductive GeminiTextOutcome where
  | missingText : GeminiTextOutcome
  | unparseable : GeminiTextOutcome
  | parsed (hasQuantitative hasLogical hasVerbal : Bool)
      (bank : QuestionBank) : GeminiTextOutcome

/-- Outcome of the `fetch` call in `generateAptitudeQuestions`: the request
may throw, return a non-ok HTTP status, or succeed with a body. -/
inductive GeminiFetchResult where
  | networkError : GeminiFetchResult
  | httpError (status : Nat) : GeminiFetchResult
  | httpOk (outcome : GeminiTextOutcome) : GeminiFetchResult

/-- Embedding of `generateAptitudeQuestions` from `src/services/geminiService.js`,
branching on the environment key and the fetch outcome: every unavailable
path (`!GEMINI_API_KEY`, `!res.ok`, `!text`, a `JSON.parse` throw caught by
the surrounding `try`, or a parse missing one of the three sections)
returns `fallbackQuestions`; otherwise the parsed bank is returned.
The class-level branch only shapes the prompt text sent to the API. -/
def generateAptitudeQuestions (classLevel : String) (apiKey : Option String)
    (fetched : GeminiFetchResult) : QuestionBank :=
  match apiKey with
  | none => fallbackQuestions
  | some _ =>
    match fetched with
    | .networkError => fallbackQuestions
    | .httpError _ => fallbackQuestions
    | .httpOk .missingText => fallbackQuestions
    | .httpOk .unparseable => fallbackQuestions
    | .httpOk (.parsed hq hl hv bank) =>
      if hq && hl && hv then bank else fallbackQuestions

/-- Modelled from the spec: the Python scoring engine (`python_engine`
similarity/aptitude/interest blend) is not part of the repository snapshot
under `src/` — only its README documents the formula
`Total Score = 0.6 × Similarity + 0.2 × Aptitude + 0.2 × Interest`
over sub-scores in [0,1].  Weights as rationals. -/
def compositeScore (similarity aptitude interest : ℚ) : ℚ :=
  (6 / 10) * similarity + (2 / 10) * aptitude + (2 / 10) * interest

/-- Modelled from the spec: the composite presented on the 0–10 display
scale ("scaled to a 0–10 display range"). -/
def compositeDisplay (similarity aptitude interest : ℚ) : ℚ :=
  10 * compositeScore similarity aptitude interest

/-- Run of the JavaScript call `shuffleArray(array)`: the pair of the caller's
array after the call and the returned array.  The source copies the input
(`[...array]`) before the in-place loop, so the caller's array is returned
unchanged. -/
def shuffleArrayRun {α : Type} (r : Nat → Nat) (array : List α) :
    List α × List α :=
  (array, shuffleArray r array)

/-- The candidate pool actually sampled by `processSection`: the section with
recently used questions removed, or the whole section when fewer than 10
fresh candidates remain. -/
def psCandidates (sectionQuestions : List Question)
    (usedIds : List String) : List Question :=
  let availableQuestions :=
    sectionQuestions.filter (fun q => !(usedIds.contains q.id))
  if availableQuestions.length < 10 then sectionQuestions
  else availableQuestions

/-- Concrete 10-question section pool used by witnesses. -/
def wPool10 : List Question :=
  [⟨"n1", "P1", ["A", "B"], 0⟩, ⟨"n2", "P2", ["A", "B"], 0⟩,
   ⟨"n3", "P3", ["A", "B"], 0⟩, ⟨"n4", "P4", ["A", "B"], 0⟩,
   ⟨"n5", "P5", ["A", "B"], 0⟩, ⟨"n6", "P6", ["A", "B"], 0⟩,
   ⟨"n7", "P7", ["A", "B"], 0⟩, ⟨"n8", "P8", ["A", "B"], 0⟩,
   ⟨"n9", "P9", ["A", "B"], 0⟩, ⟨"n10", "P10", ["A", "B"], 0⟩]

/-- Concrete bank built from `wPool10`, used by witnesses. -/
def wBank : QuestionBank := ⟨wPool10, wPool10, wPool10⟩

/-- Concrete draw source used by witnesses. -/
def wRand : SectionRand := ⟨fun _ => 0, fun _ _ => 0⟩

/-- Concrete successful quiz call against `wBank`, used by witnesses. -/
def wCall : QuizResponse × List Attempt :=
  (generateQuestions 0 [] "u" "10th" wBank wRand wRand wRand).getD
    (⟨[], [], []⟩, [])

/-- An attempt far older than 7 days, used in store witnesses. -/
def wOld : Attempt := ⟨"u", "other", ["n1"], -700000000000⟩

/-- Twenty distinct ids with a given one-character tag, used by witnesses. -/
def wIds (tag : String) : List String :=
  (List.range 20).map (fun n => tag ++ toString n)

/-- A 20-question section whose ids carry the given tag. -/
def wSec (tag : String) : List Question :=
  (wIds tag).map (fun i => ⟨i, "P", ["A", "B"], 0⟩)

/-- A bank with 20 questions per section and disjoint id sets. -/
def wBank20 : QuestionBank := ⟨wSec "a", wSec "b", wSec "c"⟩

/-- First concrete quiz call against `wBank20`. -/
def wC41 : QuizResponse × List Attempt :=
  (generateQuestions 0 [] "u" "10th" wBank20 wRand wRand wRand).getD
    (⟨[], [], []⟩, [])

/-- Second concrete quiz call, 1000 ms later, against the store left by
`wC41`. -/
def wC42 : QuizResponse × List Attempt :=
  (generateQuestions 1000 wC41.2 "u" "10th" wBank20 wRand wRand wRand).getD
    (⟨[], [], []⟩, [])

/-- Concrete quiz call whose pre-request store holds an ancient record. -/
def wCall7 : QuizResponse × List Attempt :=
  (generateQuestions 0 [wOld] "u" "10th" wBank wRand wRand wRand).getD
    (⟨[], [], []⟩, [])

/-! ### Permutation property of `shuffleArray` -/

theorem listSwap_cons_cons {α : Type} (x : α) (xs : List α) (i j : Nat) :
    listSwap (x :: xs) (i + 1) (j + 1) = x :: listSwap xs i j := by
  unfold listSwap
  rw [List.get?_cons_succ, List.get?_cons_succ]
  cases h₁ : xs.get? i <;> cases h₂ : xs.get? j <;> simp [List.set]

theorem cons_set_perm {α : Type} (x : α) :
    ∀ (xs : List α) (k : Nat) (b : α), xs.get? k = some b →
      (b :: xs.set k x).Perm (x :: xs) := by
  intro xs
  induction xs with
  | nil => intro k b h; simp at h
  | cons y t ih =>
    intro k b h
    cases k with
    | zero =>
      simp only [List.get?_cons_zero, Option.some.injEq] at h
      subst h
      simpa [List.set] using List.Perm.swap x y t
    | succ k =>
      rw [List.get?_cons_succ] at h
      have hperm := ih k b h
      have hset : (y :: t).set (k + 1) x = y :: t.set k x := by
        simp [List.set]
      rw [hset]
      have p1 : (b :: y :: t.set k x).Perm (y :: b :: t.set k x) :=
        List.Perm.swap y b _
      have p2 : (y :: b :: t.set k x).Perm (y :: x :: t) :=
        List.Perm.cons y hperm
      have p3 : (y :: x :: t).Perm (x :: y :: t) := List.Perm.swap x y t
      exact p1.trans (p2.trans p3)

theorem listSwap_perm {α : Type} :
    ∀ (l : List α) (i j : Nat), (listSwap l i j).Perm l := by
  intro l
  induction l with
  | nil => intro i j; unfold listSwap; simp
  | cons x xs ih =>
    intro i j
    cases i with
    | zero =>
      cases j with
      | zero =>
        unfold listSwap
        simp
      | succ j =>
        unfold listSwap
        rw [List.get?_cons_zero, List.get?_cons_succ]
        cases h : xs.get? j with
        | none => simp
        | some b =>
          simp only [List.set]
          exact cons_set_perm x xs j b h
    | succ i =>
      cases j with
      | zero =>
        unfold listSwap
        rw [List.get?_cons_zero, List.get?_cons_succ]
        cases h : xs.get? i with
        | none => simp
        | some a =>
          simp only [List.set]
          exact cons_set_perm x xs i a h
      | succ j =>
        rw [listSwap_cons_cons]
        exact List.Perm.cons x (ih i j)

theorem fisherYatesAux_perm {α : Type} (r : Nat → Nat) :
    ∀ (n : Nat) (l : List α), (fisherYatesAux r n l).Perm l := by
  intro n
  induction n with
  | zero => intro l; exact List.Perm.refl l
  | succ n ih =>
    intro l
    rw [fisherYatesAux]
    exact (ih _).trans (listSwap_perm l (n + 1) (r (n + 1) % (n + 2)))

theorem shuffleArray_perm {α : Type} (r : Nat → Nat) (array : List α) :
    (shuffleArray r array).Perm array :=
  fisherYatesAux_perm r (array.length - 1) array

/-- C10: For every input array and every sequence of random draws, the
shuffle helper returns a permutation of the input (same elements with the
same multiplicities) and does not mutate the input array. -/
theorem shuffleArray_permutes_and_preserves_input {α : Type}
    (r : Nat → Nat) (array : List α) :
    (shuffleArrayRun r array).1 = array ∧
      ((shuffleArrayRun r array).2).Perm array :=
  ⟨rfl, shuffleArray_perm r array⟩

/-! ### Properties of `updateQuestion` and `processSection` -/

theorem processSection_eq (rnd : SectionRand)
    (sectionQuestions : List Question) (usedIds : List String) :
    processSection rnd sectionQuestions usedIds =
      ((shuffleArray rnd.sel (psCandidates sectionQuestions usedIds)).take
        10).enum.map (fun p => updateQuestion (rnd.opt p.1) p.2) := rfl

theorem psCandidates_subset (sectionQuestions : List Question)
    (usedIds : List String) :
    psCandidates sectionQuestions usedIds ⊆ sectionQuestions := by
  unfold psCandidates
  by_cases h :
      (sectionQuestions.filter (fun q => !(usedIds.contains q.id))).length
        < 10
  · simp only [h, if_pos]
    exact fun a ha => ha
  · simp only [h, if_neg, not_false_iff]
    exact List.filter_subset' sectionQuestions

theorem updateQuestion_id (r : Nat → Nat) (q : Question) :
    (updateQuestion r q).id = q.id := rfl

theorem updateQuestion_question (r : Nat → Nat) (q : Question) :
    (updateQuestion r q).question = q.question := rfl

theorem updateQuestion_options_perm (r : Nat → Nat) (q : Question) :
    ((updateQuestion r q).options).Perm q.options :=
  shuffleArray_perm r q.options

/-- When the original `answerIndex` is a valid index, the recomputed
`answerIndex` of `updateQuestion` is again valid and points at the same
option text. -/
theorem updateQuestion_answer (r : Nat → Nat) (q : Question)
    (h0 : 0 ≤ q.answerIndex)
    (h1 : q.answerIndex.toNat < q.options.length) :
    0 ≤ (updateQuestion r q).answerIndex ∧
      ((updateQuestion r q).answerIndex).toNat <
        ((updateQuestion r q).options).length ∧
      jsGetElem (updateQuestion r q).options (updateQuestion r q).answerIndex
        = jsGetElem q.options q.answerIndex := by
  have hga : q.options.get? q.answerIndex.toNat =
      some (q.options.get ⟨q.answerIndex.toNat, h1⟩) := List.get?_eq_get h1
  set a := q.options.get ⟨q.answerIndex.toNat, h1⟩ with ha
  have hjs : jsGetElem q.options q.answerIndex = some a := by
    unfold jsGetElem
    rw [if_pos h0, hga]
  have hmem : a ∈ q.options := List.get_mem _ _ _
  have hmem' : a ∈ shuffleArray r q.options :=
    (shuffleArray_perm r q.options).mem_iff.mpr hmem
  have hopts : (updateQuestion r q).options = shuffleArray r q.options := rfl
  have hAI : (updateQuestion r q).answerIndex =
      (((shuffleArray r q.options).indexOf a : Nat) : Int) := by
    show jsIndexOf (shuffleArray r q.options)
        (jsGetElem q.options q.answerIndex) = _
    rw [hjs]
    show (if a ∈ shuffleArray r q.options
        then (((shuffleArray r q.options).indexOf a : Nat) : Int) else -1) = _
    rw [if_pos hmem']
  have hlt : (shuffleArray r q.options).indexOf a <
      (shuffleArray r q.options).length :=
    List.indexOf_lt_length.mpr hmem'
  refine ⟨?_, ?_, ?_⟩
  · rw [hAI]; exact Int.natCast_nonneg _
  · rw [hAI, hopts, Int.toNat_natCast]; exact hlt
  · rw [hAI, hopts, hjs]
    unfold jsGetElem
    rw [if_pos (Int.natCast_nonneg _), Int.toNat_natCast]
    exact List.indexOf_get? hmem'

/-- Every question returned by `processSection` is `updateQuestion` applied
to some member of the sampled candidate pool. -/
theorem mem_processSection (rnd : SectionRand)
    (sectionQuestions : List Question) (usedIds : List String)
    (q' : Question) (hq' : q' ∈ processSection rnd sectionQuestions usedIds) :
    ∃ k q, q ∈ psCandidates sectionQuestions usedIds ∧
      q' = updateQuestion (rnd.opt k) q := by
  rw [processSection_eq] at hq'
  obtain ⟨p, hp, hq⟩ := List.mem_map.mp hq'
  have hget := List.mem_enum_iff_get?.mp hp
  have hmem₁ : p.2 ∈
      (shuffleArray rnd.sel (psCandidates sectionQuestions usedIds)).take 10 :=
    List.get?_mem hget
  have hmem₂ : p.2 ∈ shuffleArray rnd.sel
      (psCandidates sectionQuestions usedIds) :=
    List.take_subset 10 _ hmem₁
  have hmem₃ : p.2 ∈ psCandidates sectionQuestions usedIds :=
    (shuffleArray_perm rnd.sel _).mem_iff.mp hmem₂
  exact ⟨p.1, p.2, hmem₃, hq.symm⟩

/-- Soundness of one `processSection` output question: it descends from a
pool question, keeps its id and prompt, permutes its options, and (when the
original index was valid) its recomputed index selects the same text and is
again in range. -/
theorem processSection_sound (rnd : SectionRand)
    (sectionQuestions : List Question) (usedIds : List String)
    (q' : Question) (hq' : q' ∈ processSection rnd sectionQuestions usedIds) :
    ∃ q ∈ sectionQuestions,
      q'.id = q.id ∧ q'.question = q.question ∧
      q'.options.Perm q.options ∧
      (0 ≤ q.answerIndex → q.answerIndex.toNat < q.options.length →
        0 ≤ q'.answerIndex ∧ q'.answerIndex.toNat < q'.options.length ∧
        jsGetElem q'.options q'.answerIndex
          = jsGetElem q.options q.answerIndex) := by
  obtain ⟨k, q, hqmem, rfl⟩ :=
    mem_processSection rnd sectionQuestions usedIds q' hq'
  refine ⟨q, psCandidates_subset sectionQuestions usedIds hqmem,
    updateQuestion_id _ q, updateQuestion_question _ q,
    updateQuestion_options_perm _ q, ?_⟩
  intro h0 h1
  exact updateQuestion_answer (rnd.opt k) q h0 h1

/-- C1: For every question whose original `answerIndex` is a valid index
into its options list, the question returned by the selection pipeline after
option shuffling satisfies `options[answerIndex] =` the original correct
option text: shuffling permutes the options and recomputes `answerIndex` so
the recorded correct-answer index still points at the same option text. -/
theorem processSection_preserves_correct_option (rnd : SectionRand)
    (sectionQuestions : List Question) (usedIds : List String)
    (q' : Question) (hq' : q' ∈ processSection rnd sectionQuestions usedIds) :
    ∃ q ∈ sectionQuestions,
      q'.id = q.id ∧ q'.question = q.question ∧
      q'.options.Perm q.options ∧
      (0 ≤ q.answerIndex → q.answerIndex.toNat < q.options.length →
        jsGetElem q'.options q'.answerIndex
          = jsGetElem q.options q.answerIndex) := by
  obtain ⟨q, hmem, hid, hqn, hperm, hans⟩ :=
    processSection_sound rnd sectionQuestions usedIds q' hq'
  exact ⟨q, hmem, hid, hqn, hperm, fun h0 h1 => (hans h0 h1).2.2⟩

/-- Witness for C1 at a concrete question whose options get reversed by the
shuffle: the recomputed index 1 still selects the original correct text. -/
theorem processSection_preserves_correct_option_witness :
    ∃ q ∈ [(⟨"q1", "Q", ["A", "B"], 0⟩ : Question)],
      (⟨"q1", "Q", ["B", "A"], 1⟩ : Question).id = q.id ∧
      (⟨"q1", "Q", ["B", "A"], 1⟩ : Question).question = q.question ∧
      (⟨"q1", "Q", ["B", "A"], 1⟩ : Question).options.Perm q.options ∧
      (0 ≤ q.answerIndex → q.answerIndex.toNat < q.options.length →
        jsGetElem (⟨"q1", "Q", ["B", "A"], 1⟩ : Question).options
            (⟨"q1", "Q", ["B", "A"], 1⟩ : Question).answerIndex
          = jsGetElem q.options q.answerIndex) :=
  processSection_preserves_correct_option ⟨fun _ => 0, fun _ _ => 0⟩
    [⟨"q1", "Q", ["A", "B"], 0⟩] [] ⟨"q1", "Q", ["B", "A"], 1⟩ (by decide)

theorem psCandidates_of_ge (sectionQuestions : List Question)
    (usedIds : List String)
    (h : 10 ≤ (sectionQuestions.filter
      (fun q => !(usedIds.contains q.id))).length) :
    psCandidates sectionQuestions usedIds =
      sectionQuestions.filter (fun q => !(usedIds.contains q.id)) := by
  unfold psCandidates
  rw [if_neg (Nat.not_lt.mpr h)]

theorem psCandidates_of_lt (sectionQuestions : List Question)
    (usedIds : List String)
    (h : (sectionQuestions.filter
      (fun q => !(usedIds.contains q.id))).length < 10) :
    psCandidates sectionQuestions usedIds = sectionQuestions := by
  unfold psCandidates
  rw [if_pos h]

theorem psCandidates_nil_used (sectionQuestions : List Question) :
    psCandidates sectionQuestions [] = sectionQuestions := by
  unfold psCandidates
  have hfil : sectionQuestions.filter
      (fun q => !((([] : List String)).contains q.id)) = sectionQuestions :=
    List.filter_eq_self.mpr (fun a _ => rfl)
  rw [hfil, ite_self]

/-- C3: the selection operation removes the seen ids from the section's
candidate pool, except that if removal would leave fewer than 10 candidates,
selection falls back to the full section pool (it then behaves exactly as if
no id had been seen). -/
theorem processSection_excludes_seen_or_falls_back (rnd : SectionRand)
    (sectionQuestions : List Question) (usedIds : List String) :
    (10 ≤ (sectionQuestions.filter
        (fun q => !(usedIds.contains q.id))).length →
      ∀ q', q' ∈ processSection rnd sectionQuestions usedIds →
        q'.id ∉ usedIds) ∧
    ((sectionQuestions.filter
        (fun q => !(usedIds.contains q.id))).length < 10 →
      processSection rnd sectionQuestions usedIds =
        processSection rnd sectionQuestions []) := by
  constructor
  · intro hlen q' hq'
    obtain ⟨k, q, hqmem, rfl⟩ :=
      mem_processSection rnd sectionQuestions usedIds q' hq'
    rw [psCandidates_of_ge sectionQuestions usedIds hlen] at hqmem
    have h2 := (List.mem_filter.mp hqmem).2
    rw [updateQuestion_id]
    simpa using h2
  · intro hlen
    rw [processSection_eq, processSection_eq,
      psCandidates_of_lt sectionQuestions usedIds hlen,
      psCandidates_nil_used sectionQuestions]

/-- Witness for C3: with a 10-question pool and the seen id "zz" absent from
it, the first returned question's id is not among the seen ids. -/
theorem processSection_excludes_seen_or_falls_back_witness :
    ((processSection ⟨fun _ => 0, fun _ _ => 0⟩ wPool10 ["zz"]).headD
        ⟨"", "", [], 0⟩).id ∉ (["zz"] : List String) :=
  (processSection_excludes_seen_or_falls_back ⟨fun _ => 0, fun _ _ => 0⟩
      wPool10 ["zz"]).1 (by decide) _ (by decide)

/-! ### Section sizes and the full quiz response -/

theorem processSection_length (rnd : SectionRand)
    (sectionQuestions : List Question) (usedIds : List String) :
    (processSection rnd sectionQuestions usedIds).length =
      min 10 (psCandidates sectionQuestions usedIds).length := by
  rw [processSection_eq, List.length_map, List.enum_length, List.length_take,
    (shuffleArray_perm rnd.sel _).length_eq]

theorem psCandidates_length_ge (sectionQuestions : List Question)
    (usedIds : List String) (h : 10 ≤ sectionQuestions.length) :
    10 ≤ (psCandidates sectionQuestions usedIds).length := by
  unfold psCandidates
  by_cases hc : (sectionQuestions.filter
      (fun q => !(usedIds.contains q.id))).length < 10
  · rw [if_pos hc]; exact h
  · rw [if_neg hc]; exact Nat.le_of_not_lt hc

theorem processSection_length_of_ge (rnd : SectionRand)
    (sectionQuestions : List Question) (usedIds : List String)
    (h : 10 ≤ sectionQuestions.length) :
    (processSection rnd sectionQuestions usedIds).length = 10 := by
  rw [processSection_length]
  exact Nat.min_eq_left (psCandidates_length_ge sectionQuestions usedIds h)

/-- C5: For every quiz request that completes successfully against a
question bank honouring the bank contract (at least 10 questions per
section, each with a valid `answerIndex`), the response contains exactly 10
questions in each of the quantitative, logical and verbal sections, each
question with shuffled options and a consistent answer index. -/
theorem generateQuestions_returns_ten_per_section (now : Int)
    (userAttempts : List Attempt) (email classLevel : String)
    (bank : QuestionBank) (rq rl rv : SectionRand)
    (resp : QuizResponse) (store' : List Attempt)
    (hemail : email ≠ "")
    (hq : 10 ≤ bank.quantitative.length)
    (hl : 10 ≤ bank.logical.length)
    (hv : 10 ≤ bank.verbal.length)
    (hvalid : ∀ q ∈ bank.quantitative ++ bank.logical ++ bank.verbal,
      0 ≤ q.answerIndex ∧ q.answerIndex.toNat < q.options.length)
    (h : generateQuestions now userAttempts email classLevel bank rq rl rv
      = some (resp, store')) :
    resp.quantitative.length = 10 ∧ resp.logical.length = 10 ∧
    resp.verbal.length = 10 ∧
    (∀ q' ∈ resp.quantitative ++ resp.logical ++ resp.verbal,
      0 ≤ q'.answerIndex ∧ q'.answerIndex.toNat < q'.options.length ∧
      ∃ q ∈ bank.quantitative ++ bank.logical ++ bank.verbal,
        q'.options.Perm q.options ∧
        jsGetElem q'.options q'.answerIndex
          = jsGetElem q.options q.answerIndex) := by
  unfold generateQuestions at h
  rw [if_neg hemail] at h
  simp only [Option.some.injEq, Prod.mk.injEq] at h
  obtain ⟨hresp, -⟩ := h
  subst hresp
  have hsec : ∀ (rnd : SectionRand) (pool : List Question),
      (∀ q ∈ pool, 0 ≤ q.answerIndex ∧ q.answerIndex.toNat < q.options.length)
      → ∀ q' ∈ processSection rnd pool
          (usedQuestionIdsOf (recentAttemptsOf now userAttempts email)),
        0 ≤ q'.answerIndex ∧ q'.answerIndex.toNat < q'.options.length ∧
        ∃ q ∈ pool, q'.options.Perm q.options ∧
          jsGetElem q'.options q'.answerIndex
            = jsGetElem q.options q.answerIndex := by
    intro rnd pool hpool q' hq'
    obtain ⟨q, hmem, _, _, hperm, hans⟩ :=
      processSection_sound rnd pool _ q' hq'
    obtain ⟨ha0, ha1, ha2⟩ := hans (hpool q hmem).1 (hpool q hmem).2
    exact ⟨ha0, ha1, q, hmem, hperm, ha2⟩
  refine ⟨processSection_length_of_ge rq _ _ hq,
    processSection_length_of_ge rl _ _ hl,
    processSection_length_of_ge rv _ _ hv, ?_⟩
  intro q' hq'
  rcases List.mem_append.mp hq' with hq'' | hcv
  · rcases List.mem_append.mp hq'' with hqq | hql
    · obtain ⟨h0, h1, q, hmem, hrest⟩ := hsec rq bank.quantitative
        (fun q hm => hvalid q (by
          exact List.mem_append.mpr (Or.inl (List.mem_append.mpr (Or.inl hm)))))
        q' hqq
      exact ⟨h0, h1, q,
        List.mem_append.mpr (Or.inl (List.mem_append.mpr (Or.inl hmem))),
        hrest⟩
    · obtain ⟨h0, h1, q, hmem, hrest⟩ := hsec rl bank.logical
        (fun q hm => hvalid q (by
          exact List.mem_append.mpr (Or.inl (List.mem_append.mpr (Or.inr hm)))))
        q' hql
      exact ⟨h0, h1, q,
        List.mem_append.mpr (Or.inl (List.mem_append.mpr (Or.inr hmem))),
        hrest⟩
  · obtain ⟨h0, h1, q, hmem, hrest⟩ := hsec rv bank.verbal
      (fun q hm => hvalid q (List.mem_append.mpr (Or.inr hm))) q' hcv
    exact ⟨h0, h1, q, List.mem_append.mpr (Or.inr hmem), hrest⟩

/-- Witness for C5: a concrete quiz request against a 10/10/10 bank returns
10 questions per section, all with consistent answer indices. -/
theorem generateQuestions_returns_ten_per_section_witness :
    wCall.1.quantitative.length = 10 ∧ wCall.1.logical.length = 10 ∧
    wCall.1.verbal.length = 10 ∧
    (∀ q' ∈ wCall.1.quantitative ++ wCall.1.logical ++ wCall.1.verbal,
      0 ≤ q'.answerIndex ∧ q'.answerIndex.toNat < q'.options.length ∧
      ∃ q ∈ wBank.quantitative ++ wBank.logical ++ wBank.verbal,
        q'.options.Perm q.options ∧
        jsGetElem q'.options q'.answerIndex
          = jsGetElem q.options q.answerIndex) :=
  generateQuestions_returns_ten_per_section 0 [] "u" "10th" wBank
    wRand wRand wRand wCall.1 wCall.2 (by decide) (by decide) (by decide)
    (by decide) (by decide) rfl

/-! ### Attempt-store invariants -/

/-- C7: After every quiz request completes, every record in the attempt
store has a timestamp within the last 7 days (older records are pruned for
all students), and a record older than 7 days never contributes to the
recently-seen (24-hour) exclusion set. -/
theorem attempt_store_seven_day_retention (now : Int)
    (userAttempts : List Attempt) (email classLevel : String)
    (bank : QuestionBank) (rq rl rv : SectionRand)
    (resp : QuizResponse) (store' : List Attempt)
    (h : generateQuestions now userAttempts email classLevel bank rq rl rv
      = some (resp, store')) :
    (∀ a ∈ store', now - 7 * 24 * 60 * 60 * 1000 ≤ a.timestamp) ∧
    (∀ (store : List Attempt) (e : String) (a : Attempt), a ∈ store →
      a.timestamp < now - 7 * 24 * 60 * 60 * 1000 →
      a ∉ recentAttemptsOf now store e) := by
  constructor
  · intro a ha
    by_cases hemail : email = ""
    · rw [generateQuestions, if_pos hemail] at h
      cases h
    · rw [generateQuestions, if_neg hemail] at h
      simp only [Option.some.injEq, Prod.mk.injEq] at h
      obtain ⟨-, hstore⟩ := h
      subst hstore
      have := (List.mem_filter.mp ha).2
      simpa using this
  · intro store e a _ hold hmem
    have hrec := (List.mem_filter.mp hmem).2
    have htime : now - 24 * 60 * 60 * 1000 ≤ a.timestamp := by
      have := (Bool.and_eq_true _ _).mp hrec
      exact of_decide_eq_true this.2
    omega

/-- Witness for C7 with an ancient record in the pre-request store. -/
theorem attempt_store_seven_day_retention_witness :
    (∀ a ∈ wCall7.2, (0 : Int) - 7 * 24 * 60 * 60 * 1000 ≤ a.timestamp) ∧
    (∀ (store : List Attempt) (e : String) (a : Attempt), a ∈ store →
      a.timestamp < (0 : Int) - 7 * 24 * 60 * 60 * 1000 →
      a ∉ recentAttemptsOf 0 store e) :=
  attempt_store_seven_day_retention 0 [wOld] "u" "10th" wBank
    wRand wRand wRand wCall7.1 wCall7.2 rfl

/-- C8: For every student identifier and attempt-store state, the
reset-history operation removes every attempt record of that student and
leaves every record of every other student unchanged (same multiplicities,
same relative order). -/
theorem resetQuestionPool_clears_only_user (userAttempts : List Attempt)
    (email : String) (hemail : email ≠ "") :
    (∀ a ∈ resetQuestionPool userAttempts email, a.userEmail ≠ email) ∧
    (∀ a : Attempt, a.userEmail ≠ email →
      (resetQuestionPool userAttempts email).count a = userAttempts.count a)
    ∧ (resetQuestionPool userAttempts email).Sublist userAttempts := by
  unfold resetQuestionPool
  rw [if_neg hemail]
  refine ⟨?_, ?_, List.filter_sublist _⟩
  · intro a ha
    have := (List.mem_filter.mp ha).2
    simpa using this
  · intro a hne
    exact List.count_filter (by simpa using hne)

/-- Witness for C8: resetting "u" on a two-user store keeps the other
user's record. -/
theorem resetQuestionPool_clears_only_user_witness :
    (∀ a ∈ resetQuestionPool [⟨"u", "c", ["n1"], 5⟩, ⟨"w", "c", ["n2"], 6⟩]
        "u", a.userEmail ≠ "u") ∧
    (∀ a : Attempt, a.userEmail ≠ "u" →
      (resetQuestionPool [⟨"u", "c", ["n1"], 5⟩, ⟨"w", "c", ["n2"], 6⟩]
        "u").count a =
      ([⟨"u", "c", ["n1"], 5⟩, ⟨"w", "c", ["n2"], 6⟩] :
        List Attempt).count a) ∧
    (resetQuestionPool [⟨"u", "c", ["n1"], 5⟩, ⟨"w", "c", ["n2"], 6⟩]
      "u").Sublist [⟨"u", "c", ["n1"], 5⟩, ⟨"w", "c", ["n2"], 6⟩] :=
  resetQuestionPool_clears_only_user
    [⟨"u", "c", ["n1"], 5⟩, ⟨"w", "c", ["n2"], 6⟩] "u" (by decide)

/-- C9: On every successful quiz request, exactly one attempt record for the
requesting student is appended to the (pruned) attempt store, and its
question-id list is exactly the ids of the returned questions: the 10
quantitative, then the 10 logical, then the 10 verbal ids. -/
theorem generateQuestions_records_attempt (now : Int)
    (userAttempts : List Attempt) (email classLevel : String)
    (bank : QuestionBank) (rq rl rv : SectionRand)
    (resp : QuizResponse) (store' : List Attempt)
    (h : generateQuestions now userAttempts email classLevel bank rq rl rv
      = some (resp, store')) :
    store' =
      userAttempts.filter
        (fun a => decide (now - 7 * 24 * 60 * 60 * 1000 ≤ a.timestamp)) ++
      [{ userEmail := email, classLevel := classLevel,
         questionIds :=
           resp.quantitative.map (fun q => q.id)
             ++ resp.logical.map (fun q => q.id)
             ++ resp.verbal.map (fun q => q.id),
         timestamp := now }] := by
  by_cases hemail : email = ""
  · rw [generateQuestions, if_pos hemail] at h
    cases h
  · rw [generateQuestions, if_neg hemail] at h
    simp only [Option.some.injEq, Prod.mk.injEq] at h
    obtain ⟨hresp, hstore⟩ := h
    subst hresp
    subst hstore
    have hts : now - 7 * 24 * 60 * 60 * 1000 ≤ now := by omega
    simp [List.filter_append, List.filter_cons, hts]

/-- Witness for C9 on the concrete call `wCall`. -/
theorem generateQuestions_records_attempt_witness :
    wCall.2 =
      ([] : List Attempt).filter
        (fun a => decide ((0 : Int) - 7 * 24 * 60 * 60 * 1000 ≤ a.timestamp))
      ++
      [{ userEmail := "u", classLevel := "10th",
         questionIds :=
           wCall.1.quantitative.map (fun q => q.id)
             ++ wCall.1.logical.map (fun q => q.id)
             ++ wCall.1.verbal.map (fun q => q.id),
         timestamp := 0 }] :=
  generateQuestions_records_attempt 0 [] "u" "10th" wBank
    wRand wRand wRand wCall.1 wCall.2 rfl

/-! ### Composite score contract and Gemini fallback -/

/-- C2: For sub-scores in [0,1], the composite score equals
0.6×similarity + 0.2×aptitude + 0.2×interest scaled to the 0–10 display
range; in particular similarity=1, aptitude=0, interest=0 yields 6.0. -/
theorem compositeDisplay_weighted_blend (similarity aptitude interest : ℚ)
    (hs0 : 0 ≤ similarity) (hs1 : similarity ≤ 1)
    (ha0 : 0 ≤ aptitude) (ha1 : aptitude ≤ 1)
    (hi0 : 0 ≤ interest) (hi1 : interest ≤ 1) :
    compositeDisplay similarity aptitude interest =
      10 * ((6 / 10) * similarity + (2 / 10) * aptitude +
        (2 / 10) * interest) ∧
    0 ≤ compositeDisplay similarity aptitude interest ∧
    compositeDisplay similarity aptitude interest ≤ 10 ∧
    compositeDisplay 1 0 0 = 6 := by
  refine ⟨rfl, ?_, ?_, by norm_num [compositeDisplay, compositeScore]⟩
  · unfold compositeDisplay compositeScore
    linarith
  · unfold compositeDisplay compositeScore
    linarith

/-- Witness for C2 at similarity=1, aptitude=0, interest=0. -/
theorem compositeDisplay_weighted_blend_witness :
    compositeDisplay 1 0 0 =
      10 * ((6 / 10) * 1 + (2 / 10) * 0 + (2 / 10) * 0) ∧
    0 ≤ compositeDisplay 1 0 0 ∧ compositeDisplay 1 0 0 ≤ 10 ∧
    compositeDisplay 1 0 0 = 6 :=
  compositeDisplay_weighted_blend 1 0 0 (by norm_num) (by norm_num)
    (by norm_num) (by norm_num) (by norm_num) (by norm_num)

/-- C6: If the external question-generation source is unavailable — API key
absent, fetch throw, HTTP error response, missing or unparseable response
text, or a parsed response missing any of the three sections — the
question-generation operation returns the fixed built-in fallback question
set instead of failing the request. -/
theorem generateAptitudeQuestions_falls_back (classLevel : String) :
    (∀ fetched, generateAptitudeQuestions classLevel none fetched
      = fallbackQuestions) ∧
    (∀ key, generateAptitudeQuestions classLevel (some key) .networkError
      = fallbackQuestions) ∧
    (∀ key status, generateAptitudeQuestions classLevel (some key)
      (.httpError status) = fallbackQuestions) ∧
    (∀ key, generateAptitudeQuestions classLevel (some key)
      (.httpOk .missingText) = fallbackQuestions) ∧
    (∀ key, generateAptitudeQuestions classLevel (some key)
      (.httpOk .unparseable) = fallbackQuestions) ∧
    (∀ key hq hl hv bank, (hq && hl && hv) = false →
      generateAptitudeQuestions classLevel (some key)
        (.httpOk (.parsed hq hl hv bank)) = fallbackQuestions) := by
  refine ⟨fun fetched => rfl, fun key => rfl, fun key status => rfl,
    fun key => rfl, fun key => rfl, fun key hq hl hv bank hfail => ?_⟩
  show (if hq && hl && hv then bank else fallbackQuestions) =
    fallbackQuestions
  rw [hfail]
  rfl

/-- Witness for C6: a parsed response whose quantitative section is falsy
yields the built-in fallback set. -/
theorem generateAptitudeQuestions_falls_back_witness :
    generateAptitudeQuestions "10th" (some "k")
      (.httpOk (.parsed false true true ⟨[], [], []⟩)) = fallbackQuestions :=
  (generateAptitudeQuestions_falls_back "10th").2.2.2.2.2 "k" false true true
    ⟨[], [], []⟩ rfl

/-! ### Two calls within 24 hours: disjoint selections (C4) -/

theorem processSection_ids_mem_pool (rnd : SectionRand)
    (pool : List Question) (used : List String) (q' : Question)
    (hq' : q' ∈ processSection rnd pool used) :
    q'.id ∈ pool.map (fun q => q.id) := by
  obtain ⟨q, hmem, hid, -, -, -⟩ := processSection_sound rnd pool used q' hq'
  exact hid ▸ List.mem_map_of_mem (fun q => q.id) hmem

/-- Counting: if the pool has at least 20 questions with pairwise distinct
ids and at most 10 pool ids can be hit by the used set (they all lie in a
`banned` list of length ≤ 10), then at least 10 fresh candidates remain. -/
theorem length_filter_not_contains_ge (pool : List Question)
    (used banned : List String)
    (hids : (pool.map (fun q => q.id)).Nodup)
    (hub : ∀ q ∈ pool, q.id ∈ used → q.id ∈ banned)
    (hblen : banned.length ≤ 10)
    (hpool : 20 ≤ pool.length) :
    10 ≤ (pool.filter (fun q => !(used.contains q.id))).length := by
  have hsubl : List.Sublist ((pool.filter (fun q => used.contains q.id)).map
      (fun q => q.id)) (pool.map (fun q => q.id)) :=
    (List.filter_sublist pool).map _
  have hnd : ((pool.filter (fun q => used.contains q.id)).map
      (fun q => q.id)).Nodup := List.Nodup.sublist hsubl hids
  have hss : ((pool.filter (fun q => used.contains q.id)).map
      (fun q => q.id)) ⊆ banned := by
    intro i hi
    obtain ⟨q, hq, rfl⟩ := List.mem_map.mp hi
    have hqpool : q ∈ pool := List.filter_subset' pool hq
    have hcont := (List.mem_filter.mp hq).2
    have hmu : q.id ∈ used := by simpa using hcont
    exact hub q hqpool hmu
  have hhit : (pool.filter (fun q => used.contains q.id)).length ≤ 10 := by
    have hle := (List.subperm_of_subset hnd hss).length_le
    rw [List.length_map] at hle
    omega
  have hperm :=
    (List.filter_append_perm (fun q => used.contains q.id) pool).length_eq
  rw [List.length_append] at hperm
  have hnotlen : (pool.filter (fun q => !(used.contains q.id))).length =
      (pool.filter (fun q => !((fun q => used.contains q.id) q))).length :=
    rfl
  omega

/-- With at least 20 distinct-id questions and at most 10 of them banned,
every selected question has an id outside the used set. -/
theorem processSection_fresh_ids (rnd : SectionRand) (pool : List Question)
    (used banned : List String)
    (hids : (pool.map (fun q => q.id)).Nodup)
    (hub : ∀ q ∈ pool, q.id ∈ used → q.id ∈ banned)
    (hblen : banned.length ≤ 10)
    (hpool : 20 ≤ pool.length) :
    ∀ q' ∈ processSection rnd pool used, q'.id ∉ used := by
  have hlen := length_filter_not_contains_ge pool used banned hids hub
    hblen hpool
  intro q' hq'
  obtain ⟨k, q, hqmem, rfl⟩ := mem_processSection rnd pool used q' hq'
  rw [psCandidates_of_ge pool used hlen] at hqmem
  have h2 := (List.mem_filter.mp hqmem).2
  rw [updateQuestion_id]
  simpa using h2

/-- Shape of the recent-attempt lookup at the second call: with no other
recent attempt of this user and the two calls within 24 hours, the lookup
returns exactly the record appended by the first call. -/
theorem recent_after_call (t1 t2 : Int) (S0 : List Attempt) (email : String)
    (rec1 : Attempt)
    (hrece : rec1.userEmail = email) (hrect : rec1.timestamp = t1)
    (hle : t1 ≤ t2) (hwithin : t2 - 24 * 60 * 60 * 1000 ≤ t1)
    (hold : ∀ a ∈ S0, a.userEmail = email →
      a.timestamp < t1 - 24 * 60 * 60 * 1000) :
    recentAttemptsOf t2
      ((S0 ++ [rec1]).filter
        (fun a => decide (t1 - 7 * 24 * 60 * 60 * 1000 ≤ a.timestamp)))
      email = [rec1] := by
  unfold recentAttemptsOf
  have h7 : (decide (t1 - 7 * 24 * 60 * 60 * 1000 ≤ rec1.timestamp))
      = true := decide_eq_true (by rw [hrect]; omega)
  rw [List.filter_append]
  have hone : [rec1].filter
      (fun a => decide (t1 - 7 * 24 * 60 * 60 * 1000 ≤ a.timestamp))
      = [rec1] := by
    rw [List.filter_cons, if_pos h7, List.filter_nil]
  rw [hone, List.filter_append]
  have hnil : (S0.filter
      (fun a => decide (t1 - 7 * 24 * 60 * 60 * 1000 ≤ a.timestamp))).filter
      (fun a => a.userEmail == email &&
        decide (t2 - 24 * 60 * 60 * 1000 ≤ a.timestamp)) = [] := by
    rw [List.filter_eq_nil_iff]
    intro a ha hpa
    have haS0 : a ∈ S0 := List.filter_subset' S0 ha
    have hparts := (Bool.and_eq_true _ _).mp hpa
    have he : a.userEmail = email := by
      have := hparts.1
      simpa using this
    have ht : t2 - 24 * 60 * 60 * 1000 ≤ a.timestamp :=
      of_decide_eq_true hparts.2
    have := hold a haS0 he
    omega
  have hpass : (rec1.userEmail == email &&
      decide (t2 - 24 * 60 * 60 * 1000 ≤ rec1.timestamp)) = true := by
    rw [hrece, hrect]
    simp only [beq_self_eq_true, Bool.true_and, decide_eq_true_eq]
    omega
  rw [hnil, List.nil_append, List.filter_cons, if_pos hpass,
    List.filter_nil]

/-- Core of the two-call disjointness: if every pool id hit by the call-2
exclusion set lies among this section's call-1 ids (at most 10 of them,
themselves part of the exclusion set), then no call-1 id of this section is
selected again. -/
theorem call2_section_disjoint (rnd2 : SectionRand) (pool : List Question)
    (ids1 ownIds : List String)
    (hids : (pool.map (fun q => q.id)).Nodup)
    (hsplit : ∀ q ∈ pool, q.id ∈ ids1 → q.id ∈ ownIds)
    (hown_len : ownIds.length ≤ 10)
    (hown_sub : ∀ i ∈ ownIds, i ∈ ids1)
    (hpool : 20 ≤ pool.length) :
    ∀ i ∈ ownIds, i ∉ (processSection rnd2 pool ids1).map (fun q => q.id) := by
  intro i hi hmem2
  obtain ⟨q', hq', rfl⟩ := List.mem_map.mp hmem2
  exact processSection_fresh_ids rnd2 pool ids1 ownIds hids hsplit hown_len
    hpool q' hq' (hown_sub _ hi)

/-- C4: If the question-selection operation is invoked twice within 24 hours
for the same student against the same well-formed question bank (per-section
ids distinct, id sets disjoint across sections) with no other recent attempt,
and a section's pool contains at least 20 candidates, then the question-id
sets returned for that section by the two calls are disjoint; and once a
section's pool is exhausted (every id already seen), the operation still
selects from the full pool without erroring. -/
theorem generateQuestions_twice_disjoint (t1 t2 : Int) (S0 : List Attempt)
    (email cl1 cl2 : String) (bank : QuestionBank)
    (r1q r1l r1v r2q r2l r2v : SectionRand)
    (resp1 resp2 : QuizResponse) (S1 S2 : List Attempt)
    (h1 : generateQuestions t1 S0 email cl1 bank r1q r1l r1v
      = some (resp1, S1))
    (h2 : generateQuestions t2 S1 email cl2 bank r2q r2l r2v
      = some (resp2, S2))
    (hle : t1 ≤ t2) (hwithin : t2 - 24 * 60 * 60 * 1000 ≤ t1)
    (hold : ∀ a ∈ S0, a.userEmail = email →
      a.timestamp < t1 - 24 * 60 * 60 * 1000)
    (hndq : (bank.quantitative.map (fun q => q.id)).Nodup)
    (hndl : (bank.logical.map (fun q => q.id)).Nodup)
    (hndv : (bank.verbal.map (fun q => q.id)).Nodup)
    (hql : ∀ i ∈ bank.quantitative.map (fun q => q.id),
      i ∉ bank.logical.map (fun q => q.id))
    (hqv : ∀ i ∈ bank.quantitative.map (fun q => q.id),
      i ∉ bank.verbal.map (fun q => q.id))
    (hlv : ∀ i ∈ bank.logical.map (fun q => q.id),
      i ∉ bank.verbal.map (fun q => q.id)) :
    (20 ≤ bank.quantitative.length →
      ∀ i ∈ resp1.quantitative.map (fun q => q.id),
        i ∉ resp2.quantitative.map (fun q => q.id)) ∧
    (20 ≤ bank.logical.length →
      ∀ i ∈ resp1.logical.map (fun q => q.id),
        i ∉ resp2.logical.map (fun q => q.id)) ∧
    (20 ≤ bank.verbal.length →
      ∀ i ∈ resp1.verbal.map (fun q => q.id),
        i ∉ resp2.verbal.map (fun q => q.id)) ∧
    (∀ (rnd : SectionRand) (pool : List Question) (used : List String),
      (∀ q ∈ pool, q.id ∈ used) →
      processSection rnd pool used = processSection rnd pool [] ∧
      (processSection rnd pool used).length = min 10 pool.length) := by
  have hexhaust : ∀ (rnd : SectionRand) (pool : List Question)
      (used : List String), (∀ q ∈ pool, q.id ∈ used) →
      processSection rnd pool used = processSection rnd pool [] ∧
      (processSection rnd pool used).length = min 10 pool.length := by
    intro rnd pool used hall
    have hfilnil : pool.filter (fun q => !(used.contains q.id)) = [] := by
      rw [List.filter_eq_nil_iff]
      intro q hq
      have hm : q.id ∈ used := hall q hq
      simp [hm]
    have hlt : (pool.filter (fun q => !(used.contains q.id))).length < 10 := by
      rw [hfilnil]
      simp
    constructor
    · rw [processSection_eq, processSection_eq,
        psCandidates_of_lt pool used hlt, psCandidates_nil_used]
    · rw [processSection_length, psCandidates_of_lt pool used hlt]
  by_cases hemail : email = ""
  · rw [generateQuestions, if_pos hemail] at h1
    cases h1
  · rw [generateQuestions, if_neg hemail] at h1
    simp only [Option.some.injEq, Prod.mk.injEq] at h1
    obtain ⟨hresp1, hS1⟩ := h1
    set used1 := usedQuestionIdsOf (recentAttemptsOf t1 S0 email) with hu1
    set A := processSection r1q bank.quantitative used1 with hA
    set B := processSection r1l bank.logical used1 with hB
    set C := processSection r1v bank.verbal used1 with hC
    set allIds := A.map (fun q => q.id) ++ B.map (fun q => q.id)
      ++ C.map (fun q => q.id) with hallIds
    have hr1q : resp1.quantitative = A := by rw [← hresp1]
    have hr1l : resp1.logical = B := by rw [← hresp1]
    have hr1v : resp1.verbal = C := by rw [← hresp1]
    set rec1 : Attempt := ⟨email, cl1, allIds, t1⟩ with hrec1
    rw [generateQuestions, if_neg hemail] at h2
    simp only [Option.some.injEq, Prod.mk.injEq] at h2
    obtain ⟨hresp2, -⟩ := h2
    rw [← hS1] at hresp2
    have hrecent := recent_after_call t1 t2 S0 email rec1 rfl rfl hle
      hwithin hold
    rw [hrecent] at hresp2
    have huse2 : usedQuestionIdsOf [rec1] = allIds := by
      simp [usedQuestionIdsOf, hrec1]
    rw [huse2] at hresp2
    have hr2q : resp2.quantitative = processSection r2q bank.quantitative
        allIds := by rw [← hresp2]
    have hr2l : resp2.logical = processSection r2l bank.logical allIds := by
      rw [← hresp2]
    have hr2v : resp2.verbal = processSection r2v bank.verbal allIds := by
      rw [← hresp2]
    have hAsub : ∀ i ∈ A.map (fun q => q.id),
        i ∈ bank.quantitative.map (fun q => q.id) := by
      intro i hi
      obtain ⟨q', hq', rfl⟩ := List.mem_map.mp hi
      rw [hA] at hq'
      exact processSection_ids_mem_pool r1q _ _ q' hq'
    have hBsub : ∀ i ∈ B.map (fun q => q.id),
        i ∈ bank.logical.map (fun q => q.id) := by
      intro i hi
      obtain ⟨q', hq', rfl⟩ := List.mem_map.mp hi
      rw [hB] at hq'
      exact processSection_ids_mem_pool r1l _ _ q' hq'
    have hCsub : ∀ i ∈ C.map (fun q => q.id),
        i ∈ bank.verbal.map (fun q => q.id) := by
      intro i hi
      obtain ⟨q', hq', rfl⟩ := List.mem_map.mp hi
      rw [hC] at hq'
      exact processSection_ids_mem_pool r1v _ _ q' hq'
    have hsplitq : ∀ q ∈ bank.quantitative, q.id ∈ allIds →
        q.id ∈ A.map (fun q => q.id) := by
      intro q hq hqid
      rw [hallIds] at hqid
      rcases List.mem_append.mp hqid with h' | hC'
      · rcases List.mem_append.mp h' with hA' | hB'
        · exact hA'
        · exact absurd (hBsub _ hB')
            (hql q.id (List.mem_map_of_mem _ hq))
      · exact absurd (hCsub _ hC') (hqv q.id (List.mem_map_of_mem _ hq))
    have hsplitl : ∀ q ∈ bank.logical, q.id ∈ allIds →
        q.id ∈ B.map (fun q => q.id) := by
      intro q hq hqid
      rw [hallIds] at hqid
      rcases List.mem_append.mp hqid with h' | hC'
      · rcases List.mem_append.mp h' with hA' | hB'
        · exact absurd (List.mem_map_of_mem _ hq) (hql q.id (hAsub _ hA'))
        · exact hB'
      · exact absurd (hCsub _ hC') (hlv q.id (List.mem_map_of_mem _ hq))
    have hsplitv : ∀ q ∈ bank.verbal, q.id ∈ allIds →
        q.id ∈ C.map (fun q => q.id) := by
      intro q hq hqid
      rw [hallIds] at hqid
      rcases List.mem_append.mp hqid with h' | hC'
      · rcases List.mem_append.mp h' with hA' | hB'
        · exact absurd (List.mem_map_of_mem _ hq) (hqv q.id (hAsub _ hA'))
        · exact absurd (List.mem_map_of_mem _ hq) (hlv q.id (hBsub _ hB'))
      · exact hC'
    have hsubA : ∀ i ∈ A.map (fun q => q.id), i ∈ allIds := by
      intro i hi
      rw [hallIds]
      exact List.mem_append.mpr (Or.inl (List.mem_append.mpr (Or.inl hi)))
    have hsubB : ∀ i ∈ B.map (fun q => q.id), i ∈ allIds := by
      intro i hi
      rw [hallIds]
      exact List.mem_append.mpr (Or.inl (List.mem_append.mpr (Or.inr hi)))
    have hsubC : ∀ i ∈ C.map (fun q => q.id), i ∈ allIds := by
      intro i hi
      rw [hallIds]
      exact List.mem_append.mpr (Or.inr hi)
    refine ⟨?_, ?_, ?_, hexhaust⟩
    · intro hp20 i hi hi2
      rw [hr1q] at hi
      rw [hr2q] at hi2
      refine call2_section_disjoint r2q bank.quantitative allIds
        (A.map (fun q => q.id)) hndq hsplitq ?_ hsubA hp20 i hi hi2
      rw [List.length_map, hA,
        processSection_length_of_ge r1q _ _ (by omega)]
    · intro hp20 i hi hi2
      rw [hr1l] at hi
      rw [hr2l] at hi2
      refine call2_section_disjoint r2l bank.logical allIds
        (B.map (fun q => q.id)) hndl hsplitl ?_ hsubB hp20 i hi hi2
      rw [List.length_map, hB,
        processSection_length_of_ge r1l _ _ (by omega)]
    · intro hp20 i hi hi2
      rw [hr1v] at hi
      rw [hr2v] at hi2
      refine call2_section_disjoint r2v bank.verbal allIds
        (C.map (fun q => q.id)) hndv hsplitv ?_ hsubC hp20 i hi hi2
      rw [List.length_map, hC,
        processSection_length_of_ge r1v _ _ (by omega)]

/-- Witness for C4: two concrete calls 1000 ms apart for user "u" against
the 20-question-per-section bank `wBank20`. -/
theorem generateQuestions_twice_disjoint_witness :
    (20 ≤ wBank20.quantitative.length →
      ∀ i ∈ wC41.1.quantitative.map (fun q => q.id),
        i ∉ wC42.1.quantitative.map (fun q => q.id)) ∧
    (20 ≤ wBank20.logical.length →
      ∀ i ∈ wC41.1.logical.map (fun q => q.id),
        i ∉ wC42.1.logical.map (fun q => q.id)) ∧
    (20 ≤ wBank20.verbal.length →
      ∀ i ∈ wC41.1.verbal.map (fun q => q.id),
        i ∉ wC42.1.verbal.map (fun q => q.id)) ∧
    (∀ (rnd : SectionRand) (pool : List Question) (used : List String),
      (∀ q ∈ pool, q.id ∈ used) →
      processSection rnd pool used = processSection rnd pool [] ∧
      (processSection rnd pool used).length = min 10 pool.length) :=
  generateQuestions_twice_disjoint 0 1000 [] "u" "10th" "10th" wBank20
    wRand wRand wRand wRand wRand wRand wC41.1 wC42.1 wC41.2 wC42.2
    rfl rfl (by decide) (by decide) (by decide) (by decide) (by decide)
    (by decide) (by decide) (by decide) (by decide)
